import Mathlib

/-!
# CharGen core: a shallow embedding and verification of its specification

This file embeds the request-authentication gate and the character
generation/mutation pipeline of the CharGen web application
(`src/app/main.py`) as executable Lean definitions, and proves (or
refutes) the specification claims about them.

Conventions of the embedding:
* Python strings are Lean `String`s; all operations on them are defined
  over `String.data` (`List Char`) so that proofs and kernel evaluation
  stay structural.
* `str | None` values are `Option String`; Python truthiness of such a
  value (`if x:`) is `(x.getD "") ≠ ""`.
* Python's `str.strip()` / `str.lower()` are modelled on ASCII
  whitespace / ASCII case, which is what every string handled by the
  core contains.
* `int(s)` is modelled on sign-prefixed ASCII decimal literals (the
  only shape the code itself produces); other exotic forms Python would
  accept are rejected, which only makes the modelled parser stricter on
  strings the code never generates.
* Code that can raise an exception observable by the caller is
  `Except`-valued; a Python `try/except` that swallows an error is
  translated by mapping the error branch back to a normal result.
* External effects (image generation, object-store upload and delete,
  database update) are injected as `Except`-valued parameters, and the
  pipeline functions additionally return the ordered list of effect
  events they issued, so ordering/abort claims are provable.
-/

namespace CharGen

/-! ## Low-level Python string primitives -/

/-- Does `needle` occur at the start of `hay`? (`str.startswith`). -/
def listStarts : List Char → List Char → Bool
  | [], _ => true
  | _ :: _, [] => false
  | a :: as, b :: bs => a == b && listStarts as bs

/-- Does `needle` occur anywhere inside `hay`? (Python's `in` on strings). -/
def listHas (needle : List Char) : List Char → Bool
  | [] => listStarts needle []
  | c :: cs => listStarts needle (c :: cs) || listHas needle cs

/-- ASCII lowercasing of a string (`str.lower` on the ASCII strings the
core handles). -/
def lowerStr (s : String) : String :=
  String.mk (s.data.map Char.toLower)

/-- Python `str.strip()` on a character list: drop leading and trailing
whitespace. -/
def stripChars (l : List Char) : List Char :=
  ((l.dropWhile Char.isWhitespace).reverse.dropWhile Char.isWhitespace).reverse

/-- Python `str.strip()` as a `String` operation. -/
def pyStrip (s : String) : String :=
  String.mk (stripChars s.data)

/-- Python truthiness of a `str | None` value: `None` and `""` are falsy. -/
def truthy (o : Option String) : Bool :=
  o.getD "" != ""

/-- Python `str.isascii()`: every character below U+0080.
`hmac.compare_digest` on `str` arguments requires both to be ASCII and
raises `TypeError` otherwise. -/
def strAscii (s : String) : Bool :=
  s.data.all (fun c => c.toNat ≤ 127)

/-- The idiom `(x or "").strip() or None`: normalize an optional string
by stripping it, collapsing a blank result to `None`. -/
def normOpt (o : Option String) : Option String :=
  let t := pyStrip (o.getD "")
  if t = "" then none else some t

/-- Split a character list at the first character satisfying `p`,
returning the parts before and after it (the separator removed). -/
def splitFirstP (p : Char → Bool) : List Char → Option (List Char × List Char)
  | [] => none
  | c :: cs =>
    if p c then some ([], cs)
    else (splitFirstP p cs).map (fun x => (c :: x.1, x.2))

/-- Python `s.split(sep, 1)`: one element when the separator is absent, two
otherwise. -/
def pySplit1 (sep : Char) (s : String) : List String :=
  match splitFirstP (fun c => c == sep) s.data with
  | none => [s]
  | some (a, b) => [String.mk a, String.mk b]

/-- Python `s.split(None, 1)`: split on runs of whitespace, at most once,
ignoring leading and trailing whitespace. -/
def pySplitWs1 (s : String) : List String :=
  let l := s.data.dropWhile Char.isWhitespace
  match splitFirstP Char.isWhitespace l with
  | none => if l.isEmpty then [] else [String.mk l]
  | some (a, b) =>
    let b' := b.dropWhile Char.isWhitespace
    if b'.isEmpty then [String.mk a] else [String.mk a, String.mk b']

/-! ## Decimal rendering and parsing (`str(int)` / `int(str)`) -/

/-- The ASCII character of a decimal digit. -/
def digitChar (d : Nat) : Char :=
  Char.ofNat (48 + d)

/-- Decimal digits of `n`, least significant first, with structural fuel. -/
def natToRevChars : Nat → Nat → List Char
  | 0, _ => []
  | fuel + 1, n =>
    if n = 0 then [] else digitChar (n % 10) :: natToRevChars fuel (n / 10)

/-- Python `str(n)` for a natural number. -/
def natToStr (n : Nat) : String :=
  if n = 0 then "0" else String.mk (natToRevChars n n).reverse

/-- Python `str(i)` for a Python integer. -/
def intToStr (i : Int) : String :=
  if i < 0 then "-" ++ natToStr i.natAbs else natToStr i.toNat

/-- The value of an ASCII decimal digit character, if it is one. -/
def digitVal (c : Char) : Option Nat :=
  if 48 ≤ c.toNat ∧ c.toNat ≤ 57 then some (c.toNat - 48) else none

/-- Fold an all-digits character list into a number; any non-digit
fails. -/
def parseNatAux : List Char → Nat → Option Nat
  | [], acc => some acc
  | c :: cs, acc =>
    match digitVal c with
    | none => none
    | some d => parseNatAux cs (10 * acc + d)

/-- Parse a non-empty all-digits character list. -/
def parseNatChars : List Char → Option Nat
  | [] => none
  | c :: cs => parseNatAux (c :: cs) 0

/-- Python `int(s)` on a sign-prefixed ASCII decimal literal; anything else is
a `ValueError`, modelled as `none`. -/
def pyInt (s : String) : Option Int :=
  match s.data with
  | [] => none
  | c :: cs =>
    if c == '-' then (parseNatChars cs).map (fun n => -(n : Int))
    else if c == '+' then (parseNatChars cs).map (fun n => (n : Int))
    else (parseNatChars (c :: cs)).map (fun n => (n : Int))

/-! ## SignedSession (`_sign_session` / `_is_session_authed`) -/

/-- The constant `SESSION_TTL_SEC = 24 * 60 * 60`. -/
def SESSION_TTL_SEC : Nat := 24 * 60 * 60

/-- Model of `_sign_session(ts)`: the stateless session cookie `"<ts>.<hmac>"`.
The HMAC-SHA256 itself is kept abstract as `mac` (a function of the key
`PASSPHRASE_SHA256` and the message `str(ts)`); the claims about the
codec only use that it is a deterministic function of key and message. -/
def signSession (mac : String → String → String) (passHash : String) (ts : Int) : String :=
  intToStr ts ++ "." ++ mac passHash (intToStr ts)

/-- The exceptions `_is_session_authed` could let escape: an
`IndexError` from the `[1]` access on the re-split signature, and the
`TypeError` that `hmac.compare_digest` raises on a non-ASCII `str`
argument. Both statements sit outside the function's `try/except`,
which guards only the split and the `int()` parse. -/
inductive PyExc
  | indexError
  | typeError
deriving DecidableEq, Repr

/-- Model of `_is_session_authed(request)` with the Python exception behaviour
explicit: the `try/except` around the cookie parse maps a parse failure
to `False`; the later `split('.', 1)[1]` access and the
`hmac.compare_digest(sig, expected)` call are outside that guard, so an
out-of-range index there, or a comparison involving a non-ASCII string,
escapes as an exception. -/
def isSessionAuthedE (mac : String → String → String) (passHash : String)
    (cookie : Option String) (now : Int) : Except PyExc Bool :=
  match cookie with
  | none => .ok false
  | some v =>
    if v = "" then .ok false
    else
      match pySplit1 '.' v with
      | [tsS, sig] =>
        match pyInt tsS with
        | none => .ok false
        | some ts =>
          if ts > now + 60 then .ok false
          else if now - ts > (SESSION_TTL_SEC : Int) then .ok false
          else
            match (pySplit1 '.' (signSession mac passHash ts))[1]? with
            | none => .error .indexError
            | some expected =>
              if strAscii sig && strAscii expected then .ok (sig == expected)
              else .error .typeError
      | _ => .ok false

/-- The boolean projection of `_is_session_authed`: what the gate
observes whenever the call returns instead of raising. On the raising
(`TypeError`) path the real middleware propagates the exception instead
— `tokenGateE` below tracks that channel. -/
def isSessionAuthed (mac : String → String → String) (passHash : String)
    (cookie : Option String) (now : Int) : Bool :=
  match isSessionAuthedE mac passHash cookie now with
  | .ok b => b
  | .error _ => false

/-! ## AuthGate (`token_gate` middleware and its helpers) -/

/-- The parts of an inbound request the gate looks at. -/
structure GateReq where
  path : String
  authorization : Option String
  tParam : Option String
  cookie : Option String
  accept : Option String
deriving Repr

/-- What the middleware does with a request. -/
inductive GateResp
  | next
  | json (status : Nat) (errMsg : String)
  | redirect (status : Nat) (url : String)
  | html (status : Nat)
deriving DecidableEq, Repr

/-- Model of `_extract_token`: prefer a well-formed `Authorization: Bearer x`
header, else fall back to the `t` query parameter. -/
def extractToken (authorization : Option String) (tParam : Option String) : Option String :=
  let fallback := match tParam with
    | some t => if t = "" then none else some (pyStrip t)
    | none => none
  match authorization with
  | some a =>
    if a = "" then fallback
    else
      match pySplitWs1 a with
      | [p0, p1] => if lowerStr p0 = "bearer" then some (pyStrip p1) else fallback
      | _ => fallback
  | none => fallback

/-- Model of `_wants_html`: the Accept header (lowercased, absent treated as
empty) contains `text/html`, or is empty. -/
def wantsHtml (accept : Option String) : Bool :=
  let a := lowerStr (accept.getD "")
  listHas "text/html".data a.data || a == ""

/-- The `token_gate` middleware: allow-list, fail-closed token check,
bearer/query token, passphrase session cookie, and the three rejection
shapes. `cfgToken` is `CHARGEN_TOKEN`, `passHash` is
`PASSPHRASE_SHA256` (already stripped/lowercased at startup). -/
def tokenGate (mac : String → String → String) (cfgToken : Option String)
    (passHash : String) (req : GateReq) (now : Int) : GateResp :=
  if req.path = "/ping" ∨ req.path = "/robots.txt" then .next
  else if req.path = "/login" ∨ req.path = "/logout" then .next
  else
    let expected := cfgToken.getD ""
    if expected = "" then .json 503 "CHARGEN_TOKEN not configured"
    else if extractToken req.authorization req.tParam = some expected then .next
    else if passHash ≠ "" ∧ isSessionAuthed mac passHash req.cookie now = true then .next
    else if wantsHtml req.accept then
      if passHash ≠ "" ∧ passHash.length = 64 then .redirect 302 "/login"
      else .html 401
    else .json 401 "unauthorized"

/-- The `token_gate` middleware with the session check's exception
channel explicit: `PASSPHRASE_SHA256 and _is_session_authed(request)`
short-circuits, so the session function runs only when a passphrase is
configured, and an exception it raises (the non-ASCII `compare_digest`
`TypeError`) propagates out of the middleware — the server then
answers 500, reaching none of the rejection branches. `tokenGate`
above is the response on requests whose session check does not
raise. -/
def tokenGateE (mac : String → String → String) (cfgToken : Option String)
    (passHash : String) (req : GateReq) (now : Int) : Except PyExc GateResp :=
  if req.path = "/ping" ∨ req.path = "/robots.txt" then .ok .next
  else if req.path = "/login" ∨ req.path = "/logout" then .ok .next
  else
    let expected := cfgToken.getD ""
    if expected = "" then .ok (.json 503 "CHARGEN_TOKEN not configured")
    else if extractToken req.authorization req.tParam = some expected then .ok .next
    else
      match (if passHash = "" then Except.ok false
             else isSessionAuthedE mac passHash req.cookie now) with
      | .error e => .error e
      | .ok true => .ok .next
      | .ok false =>
        if wantsHtml req.accept then
          if passHash ≠ "" ∧ passHash.length = 64 then .ok (.redirect 302 "/login")
          else .ok (.html 401)
        else .ok (.json 401 "unauthorized")

/-! ## TraitComposer (`_compose_traits`) -/

/-- The `parts` list built by the sequence of truthiness-guarded
`parts.append(...)` statements in `_compose_traits`. -/
def composeParts (race clazz mood bg gender style extra : Option String) : List String :=
  (if truthy race then [race.getD ""] else []) ++
  (if truthy clazz then [clazz.getD ""] else []) ++
  (if truthy mood then [mood.getD "" ++ " expression"] else []) ++
  (if truthy bg then [bg.getD "" ++ " background"] else []) ++
  (if truthy gender then [gender.getD ""] else []) ++
  (if truthy style then ["Style: " ++ style.getD ""] else []) ++
  (if truthy extra then [extra.getD ""] else [])

/-- Model of `_compose_traits`: the guarded appends above, then
`", ".join([p for p in parts if p])`. -/
def composeTraits (race clazz mood bg gender style extra : Option String) : String :=
  String.intercalate ", "
    ((composeParts race clazz mood bg gender style extra).filter (fun p => p != ""))

/-- Modelled from the spec's wording of `compose`: the "present
(non-empty)" filter on an optional field. -/
def present (o : Option String) : Option String :=
  match o with
  | none => none
  | some s => if s = "" then none else some s

/-- Modelled from the spec's wording of `compose` (for the refinement
claim): the optional rendered fields, in the fixed order, with the
present (non-empty) ones joined by `", "`. -/
def composeSpec (race clazz mood bg gender style extra : Option String) : String :=
  String.intercalate ", "
    (([present race,
       present clazz,
       (present mood).map (fun m => m ++ " expression"),
       (present bg).map (fun b => b ++ " background"),
       present gender,
       (present style).map (fun s => "Style: " ++ s),
       present extra]).filterMap id)

/-! ## CharacterPipeline: regenerate, metadata update, create, delete -/

/-- The columns of a stored character row that the regenerate handler
reads. -/
structure CharRow where
  race : Option String
  clazz : Option String
  mood : Option String
  bg : Option String
  gender : Option String
  style : Option String
  extra : Option String
  traits : Option String
  image_url : String
deriving Repr

/-- The JSON body of a regenerate request (absent keys are `none`). -/
structure RegenBody where
  extra : Option String
  traits : Option String
  style : Option String
deriving Repr

/-- The merged `style`: the normalized caller override if present, else
the stored value. -/
def regenMergedStyle (row : CharRow) (b : RegenBody) : Option String :=
  match normOpt b.style with
  | some s => some s
  | none => row.style

/-- The merged `extra`: the normalized caller override if present, else
the stored value. -/
def regenMergedExtra (row : CharRow) (b : RegenBody) : Option String :=
  match normOpt b.extra with
  | some e => some e
  | none => row.extra

/-- The merged `traits` before the emptiness check: the normalized
caller override if present, else the stored value. -/
def regenMergedTraits (row : CharRow) (b : RegenBody) : Option String :=
  match normOpt b.traits with
  | some t => some t
  | none => row.traits

/-- The `traits` value after the "if user cleared traits, rebuild it
from metadata+extra" step of the regenerate handler. -/
def regenTraitsBase (row : CharRow) (b : RegenBody) : String :=
  let t := regenMergedTraits row b
  if (t.getD "") = "" then
    composeTraits row.race row.clazz row.mood row.bg row.gender
      (regenMergedStyle row b) (regenMergedExtra row b)
  else t.getD ""

/-- The "ensure selected style influences the generation" step: append
a `"Style: <style>"` token unless the (lowercased) traits already
contain a `style:` marker. -/
def ensureStyleTag (style : Option String) (traits : String) : String :=
  if truthy style = true ∧ listHas "style:".data (lowerStr traits).data = false then
    let t := pyStrip traits
    t ++ (if t ≠ "" then ", " else "") ++ "Style: " ++ style.getD ""
  else traits

/-- The final `traits` value the regenerate handler writes. -/
def regenTraits (row : CharRow) (b : RegenBody) : String :=
  ensureStyleTag (regenMergedStyle row b) (regenTraitsBase row b)

/-- The row values a successful regenerate writes. -/
structure RegenWritten where
  extra : Option String
  traits : String
  style : Option String
  image_url : String
  thumb_url : Option String
deriving Repr

/-- External effects the regenerate handler can issue, in order. -/
inductive REv
  | genImage
  | upload
  | updateRow
  | commitRow
  | deleteOld (url : String)
deriving DecidableEq, Repr

/-- The `character_regenerate` handler. External outcomes are injected:
`genRes` for the Gemini call (its failure is an `HTTPException` that
aborts), `uploadRes` for the required full-image upload (the thumbnail
half is best-effort and carried inside the `ok` payload), `updRes` for
the row update (connection failure, or the affected-row count). The
result is the HTTP outcome, the ordered effect trace, and the row
values that were durably committed (if any). -/
def characterRegenerate (row? : Option CharRow) (b : RegenBody)
    (genRes : Except Nat Unit) (uploadRes : Except Nat (String × Option String))
    (updRes : Except Nat Nat) :
    Except Nat (String × Option String) × List REv × Option RegenWritten :=
  match row? with
  | none => (.error 404, [], none)
  | some row =>
    match genRes with
    | .error e => (.error e, [.genImage], none)
    | .ok _ =>
      match uploadRes with
      | .error e => (.error e, [.genImage, .upload], none)
      | .ok (iu, tu) =>
        match updRes with
        | .error e => (.error e, [.genImage, .upload], none)
        | .ok n =>
          if n = 1 then
            (.ok (iu, tu),
             [.genImage, .upload, .updateRow, .commitRow, .deleteOld row.image_url],
             some { extra := regenMergedExtra row b, traits := regenTraits row b,
                    style := regenMergedStyle row b, image_url := iu, thumb_url := tu })
          else (.error 404, [.genImage, .upload, .updateRow], none)

/-- The JSON body of a metadata-update request. -/
structure UpdBody where
  name : Option String
  extra : Option String
  traits : Option String
deriving Repr

/-- The values the metadata-update handler passes to its `update`
statement. -/
structure UpdWritten where
  name : String
  extra : Option String
  traits : Option String
deriving DecidableEq, Repr

/-- The `character_update` handler up to the database write: `400` on a
blank name, otherwise the normalized values are written as-is. -/
def characterUpdate (b : UpdBody) : Except Nat UpdWritten :=
  match normOpt b.name with
  | none => .error 400
  | some nm => .ok { name := nm, extra := normOpt b.extra, traits := normOpt b.traits }

/-- The `characters` table schema (`_db_init`) declares
`traits text not null`: a row write with a null traits violates it. -/
def schemaTraitsOk (t : Option String) : Bool :=
  t != none

/-- The JSON body of a `/generate` (create) request. -/
structure GenBody where
  name : Option String
  race : Option String
  clazz : Option String
  mood : Option String
  bg : Option String
  gender : Option String
  style : Option String
  extra : Option String
  traits : Option String
deriving Repr

/-- The row the `/generate` handler inserts. -/
structure InsRow where
  name : String
  race : Option String
  clazz : Option String
  mood : Option String
  bg : Option String
  gender : Option String
  style : Option String
  extra : Option String
  traits : String
  image_url : String
  thumb_url : Option String
deriving Repr

/-- The `/generate` (create) handler: `400` on blank traits before any
effect; on success the inserted row carries the stripped traits
verbatim. -/
def generateCreate (b : GenBody) (genRes : Except Nat Unit)
    (uploadRes : Except Nat (String × Option String)) :
    Except Nat Unit × Option InsRow :=
  let nm := pyStrip (b.name.getD "")
  let traits := pyStrip (b.traits.getD "")
  if traits = "" then (.error 400, none)
  else
    match genRes with
    | .error e => (.error e, none)
    | .ok _ =>
      match uploadRes with
      | .error e => (.error e, none)
      | .ok (iu, tu) =>
        (.ok (),
         some { name := if nm = "" then "Unnamed" else nm,
                race := normOpt b.race, clazz := normOpt b.clazz,
                mood := normOpt b.mood, bg := normOpt b.bg,
                gender := normOpt b.gender, style := normOpt b.style,
                extra := normOpt b.extra, traits := traits,
                image_url := iu, thumb_url := tu })

/-! ## AssetPublisher cleanup (`_delete_spaces_object_if_ours`) -/

/-- The object-store configuration (`_spaces_cfg`), present only when
all five environment values are set. -/
structure SpacesCfg where
  accessKey : String
  secretKey : String
  bucket : String
  region : String
  endpoint : String
deriving Repr

/-- Model of `_spaces_public_base`. -/
def spacesPublicBase (c : SpacesCfg) : String :=
  "https://" ++ c.bucket ++ "." ++ c.endpoint

/-- Python `str.rstrip("/")`. -/
def rstripSlash (s : String) : String :=
  String.mk ((s.data.reverse.dropWhile (fun c => c == '/')).reverse)

/-- The own-URL check of `_delete_spaces_object_if_ours`:
`public_base.rstrip("/") + "/"`. -/
def spacesOwnBase (c : SpacesCfg) : String :=
  rstripSlash (spacesPublicBase c) ++ "/"

/-- A delete issued against the object store. -/
inductive DelCall
  | deleteObject (bucket key : String)
deriving DecidableEq, Repr

/-- Model of `_delete_spaces_object_if_ours(url)`: no-op when unconfigured, on a
falsy URL, or on a URL that does not start with the store's own public
base; otherwise one `delete_object` call whose failure (`delRes`) is
swallowed by the `try/except`. The result is the list of issued delete
calls; the `Except` layer shows no exception reaches the caller. -/
def deleteSpacesObjectIfOurs (cfg : Option SpacesCfg) (url : Option String)
    (delRes : Except Unit Unit) : Except Unit (List DelCall) :=
  match cfg with
  | none => .ok []
  | some c =>
    if url.getD "" = "" then .ok []
    else
      let u := url.getD ""
      let base := spacesOwnBase c
      if listStarts base.data u.data = false then .ok []
      else
        let key := String.mk (u.data.drop base.data.length)
        match delRes with
        | .ok _ => .ok [.deleteObject c.bucket key]
        | .error _ => .ok [.deleteObject c.bucket key]

/-- Modelled from the spec's wording "a 64-hex passphrase digest":
64 characters, all lowercase hex digits. (The code's own check is only
`len(PASSPHRASE_SHA256) == 64`.) -/
def isHex64 (s : String) : Bool :=
  s.length == 64 && s.data.all (fun c => c.isDigit || ('a' ≤ c && c ≤ 'f'))

/-! ## Helper lemmas: digits, parsing, splitting -/

theorem digitVal_digitChar {d : Nat} (hd : d < 10) : digitVal (digitChar d) = some d := by
  interval_cases d <;> decide

theorem digitChar_not_special {d : Nat} (hd : d < 10) :
    digitChar d ≠ '.' ∧ digitChar d ≠ '-' ∧ digitChar d ≠ '+' := by
  interval_cases d <;> decide

theorem natToRevChars_mem {fuel n : Nat} {c : Char} (h : c ∈ natToRevChars fuel n) :
    ∃ d, d < 10 ∧ c = digitChar d := by
  induction fuel generalizing n with
  | zero => simp [natToRevChars] at h
  | succ fuel ih =>
    by_cases hn : n = 0
    · simp [natToRevChars, hn] at h
    · simp [natToRevChars, hn] at h
      rcases h with h | h
      · exact ⟨n % 10, Nat.mod_lt n (by norm_num), h⟩
      · exact ih h

theorem parseNatAux_append (xs ys : List Char) (acc : Nat) :
    parseNatAux (xs ++ ys) acc =
      match parseNatAux xs acc with
      | none => none
      | some m => parseNatAux ys m := by
  induction xs generalizing acc with
  | nil => simp [parseNatAux]
  | cons c cs ih =>
    simp only [List.cons_append, parseNatAux]
    cases digitVal c with
    | none => rfl
    | some d => exact ih _

theorem parseNatAux_natToRevChars {fuel n : Nat} (h : n ≤ fuel) (acc : Nat) :
    parseNatAux (natToRevChars fuel n).reverse acc =
      some (acc * 10 ^ (natToRevChars fuel n).length + n) := by
  induction fuel generalizing n acc with
  | zero =>
    have : n = 0 := Nat.le_zero.mp h
    simp [this, natToRevChars, parseNatAux]
  | succ fuel ih =>
    by_cases hn : n = 0
    · simp [hn, natToRevChars, parseNatAux]
    · have h10 : n % 10 < 10 := Nat.mod_lt n (by norm_num)
      have hdiv : n / 10 ≤ fuel := by
        have h1 : n / 10 < n := Nat.div_lt_self (Nat.pos_of_ne_zero hn) (by norm_num)
        omega
      simp only [natToRevChars, hn, if_false, List.reverse_cons]
      rw [parseNatAux_append, ih hdiv acc]
      simp only [parseNatAux, digitVal_digitChar h10]
      congr 1
      have hmod : 10 * (n / 10) + n % 10 = n := Nat.div_add_mod n 10
      have hlen : (digitChar (n % 10) :: natToRevChars fuel (n / 10)).length
          = (natToRevChars fuel (n / 10)).length + 1 := rfl
      rw [hlen, pow_succ]
      set L := 10 ^ (natToRevChars fuel (n / 10)).length with hL
      have hstep : 10 * (acc * L + n / 10) + n % 10
          = acc * (L * 10) + (10 * (n / 10) + n % 10) := by ring
      rw [hstep, hmod]

theorem natToRevChars_ne_nil {n : Nat} (hn : n ≠ 0) : natToRevChars n n ≠ [] := by
  cases n with
  | zero => exact absurd rfl hn
  | succ m => simp [natToRevChars]

theorem parseNatChars_natToStr (n : Nat) : parseNatChars (natToStr n).data = some n := by
  by_cases hn : n = 0
  · subst hn; decide
  · have hrev : (natToRevChars n n).reverse ≠ [] := by
      simpa using natToRevChars_ne_nil hn
    obtain ⟨c, cs, hcs⟩ := List.exists_cons_of_ne_nil hrev
    have hdata : (natToStr n).data = c :: cs := by
      rw [natToStr, if_neg hn]
      exact hcs
    rw [hdata]
    show parseNatAux (c :: cs) 0 = some n
    rw [← hcs, parseNatAux_natToRevChars (Nat.le_refl n) 0]
    simp

theorem natToStr_mem_digit {n : Nat} {c : Char} (h : c ∈ (natToStr n).data) :
    ∃ d, d < 10 ∧ c = digitChar d := by
  by_cases hn : n = 0
  · subst hn
    have hd : (natToStr 0).data = ['0'] := by decide
    rw [hd] at h
    refine ⟨0, by norm_num, ?_⟩
    have hc := List.mem_singleton.mp h
    rw [hc]; decide
  · have hdata : (natToStr n).data = (natToRevChars n n).reverse := by
      rw [natToStr, if_neg hn]
    rw [hdata] at h
    exact natToRevChars_mem (List.mem_reverse.mp h)

theorem data_append (a b : String) : (a ++ b).data = a.data ++ b.data := rfl

theorem pyInt_intToStr (i : Int) : pyInt (intToStr i) = some i := by
  by_cases hi : i < 0
  · have hdata : (intToStr i).data = '-' :: (natToStr i.natAbs).data := by
      rw [intToStr, if_pos hi, data_append]
      rfl
    unfold pyInt
    rw [hdata]
    simp only [beq_self_eq_true, if_true]
    rw [parseNatChars_natToStr]
    show some (-(i.natAbs : Int)) = some i
    congr 1
    omega
  · have hdata : intToStr i = natToStr i.toNat := by rw [intToStr, if_neg hi]
    rw [hdata]
    unfold pyInt
    have hne : (natToStr i.toNat).data ≠ [] := by
      intro hnil
      have := parseNatChars_natToStr i.toNat
      rw [hnil] at this
      simp [parseNatChars] at this
    obtain ⟨c, cs, hcs⟩ := List.exists_cons_of_ne_nil hne
    have hcmem : c ∈ (natToStr i.toNat).data := by rw [hcs]; exact List.mem_cons_self _ _
    obtain ⟨d, hd, hcd⟩ := natToStr_mem_digit hcmem
    have hnotdash : (c == '-') = false := by
      subst hcd
      exact beq_eq_false_iff_ne.mpr (digitChar_not_special hd).2.1
    have hnotplus : (c == '+') = false := by
      subst hcd
      exact beq_eq_false_iff_ne.mpr (digitChar_not_special hd).2.2
    rw [hcs]
    simp only [hnotdash, hnotplus, Bool.false_eq_true, if_false]
    rw [show parseNatChars (c :: cs) = parseNatChars (natToStr i.toNat).data from by rw [hcs]]
    rw [parseNatChars_natToStr]
    show some ((i.toNat : Int)) = some i
    congr 1
    omega

theorem splitFirstP_append_of_not {p : Char → Bool} {a : List Char}
    (ha : ∀ c ∈ a, p c = false) {b : Char} (hb : p b = true) (rest : List Char) :
    splitFirstP p (a ++ b :: rest) = some (a, rest) := by
  induction a with
  | nil => simp [splitFirstP, hb]
  | cons c cs ih =>
    have hc : p c = false := ha c (List.mem_cons_self _ _)
    have ih' := ih (fun x hx => ha x (List.mem_cons_of_mem _ hx))
    show splitFirstP p (c :: (cs ++ b :: rest)) = some (c :: cs, rest)
    rw [splitFirstP, if_neg (by simp [hc]), ih']
    rfl

theorem splitFirstP_append_isSome {p : Char → Bool} (a : List Char) {b : Char}
    (hb : p b = true) (rest : List Char) :
    ∃ pr, splitFirstP p (a ++ b :: rest) = some pr := by
  induction a with
  | nil => exact ⟨([], rest), by simp [splitFirstP, hb]⟩
  | cons c cs ih =>
    by_cases hc : p c = true
    · exact ⟨([], cs ++ b :: rest), by
        show splitFirstP p (c :: (cs ++ b :: rest)) = _
        rw [splitFirstP, if_pos hc]⟩
    · obtain ⟨pr, hpr⟩ := ih
      refine ⟨(c :: pr.1, pr.2), ?_⟩
      show splitFirstP p (c :: (cs ++ b :: rest)) = _
      rw [splitFirstP, if_neg hc, hpr]
      rfl

theorem splitFirstP_mem {p : Char → Bool} :
    ∀ {l a b : List Char}, splitFirstP p l = some (a, b) →
      (∀ c ∈ a, c ∈ l) ∧ (∀ c ∈ b, c ∈ l) := by
  intro l
  induction l with
  | nil => intro a b h; simp [splitFirstP] at h
  | cons x xs ih =>
    intro a b h
    unfold splitFirstP at h
    by_cases hx : p x = true
    · rw [if_pos hx] at h
      simp only [Option.some_inj, Prod.mk.injEq] at h
      obtain ⟨rfl, rfl⟩ := h
      constructor
      · intro c hc; simp at hc
      · intro c hc; exact List.mem_cons_of_mem _ hc
    · rw [if_neg hx] at h
      cases hsp : splitFirstP p xs with
      | none => rw [hsp] at h; simp at h
      | some pr =>
        obtain ⟨pa, pb⟩ := pr
        rw [hsp] at h
        have h2 : (x :: pa, pb) = (a, b) := Option.some_inj.mp h
        simp only [Prod.mk.injEq] at h2
        obtain ⟨rfl, rfl⟩ := h2
        obtain ⟨iha, ihb⟩ := ih hsp
        constructor
        · intro c hc
          rcases List.mem_cons.mp hc with rfl | hc
          · exact List.mem_cons_self _ _
          · exact List.mem_cons_of_mem _ (iha c hc)
        · intro c hc
          exact List.mem_cons_of_mem _ (ihb c hc)

theorem strAscii_mk_of_subset {l : List Char} {v : String}
    (hsub : ∀ c ∈ l, c ∈ v.data) (hv : strAscii v = true) :
    strAscii (String.mk l) = true := by
  unfold strAscii at hv ⊢
  rw [List.all_eq_true] at hv ⊢
  exact fun c hc => hv c (hsub c hc)

theorem intToStr_no_dot (i : Int) : ∀ c ∈ (intToStr i).data, (c == '.') = false := by
  intro c hc
  by_cases hi : i < 0
  · have hdata : (intToStr i).data = '-' :: (natToStr i.natAbs).data := by
      rw [intToStr, if_pos hi, data_append]
      rfl
    rw [hdata] at hc
    rcases List.mem_cons.mp hc with h | h
    · subst h; decide
    · obtain ⟨d, hd, hcd⟩ := natToStr_mem_digit h
      subst hcd
      exact beq_eq_false_iff_ne.mpr (digitChar_not_special hd).1
  · have hdata : intToStr i = natToStr i.toNat := by rw [intToStr, if_neg hi]
    rw [hdata] at hc
    obtain ⟨d, hd, hcd⟩ := natToStr_mem_digit hc
    subst hcd
    exact beq_eq_false_iff_ne.mpr (digitChar_not_special hd).1

theorem signSession_data (mac : String → String → String) (passHash : String) (ts : Int) :
    (signSession mac passHash ts).data =
      (intToStr ts).data ++ '.' :: (mac passHash (intToStr ts)).data := by
  show (intToStr ts ++ "." ++ mac passHash (intToStr ts)).data = _
  rw [data_append, data_append, List.append_assoc]
  rfl

theorem signSession_ne_empty (mac : String → String → String) (passHash : String) (ts : Int) :
    signSession mac passHash ts ≠ "" := by
  intro h
  have hd : (signSession mac passHash ts).data = [] := by rw [h]
  rw [signSession_data] at hd
  simp at hd

theorem pySplit1_signSession (mac : String → String → String) (passHash : String) (ts : Int) :
    pySplit1 '.' (signSession mac passHash ts) =
      [intToStr ts, mac passHash (intToStr ts)] := by
  unfold pySplit1
  rw [signSession_data,
    splitFirstP_append_of_not (intToStr_no_dot ts) (by decide) _]

theorem isSessionAuthedE_ok (mac : String → String → String) (passHash : String)
    (cookie : Option String) (now : Int)
    (hm : ∀ k m, strAscii (mac k m) = true)
    (hca : strAscii (cookie.getD "") = true) :
    ∃ b, isSessionAuthedE mac passHash cookie now = .ok b := by
  cases cookie with
  | none => exact ⟨false, rfl⟩
  | some v =>
    simp only [isSessionAuthedE]
    have hv : strAscii v = true := hca
    by_cases hve : v = ""
    · rw [if_pos hve]; exact ⟨false, rfl⟩
    · rw [if_neg hve]
      cases hsp : splitFirstP (fun c => c == '.') v.data with
      | none =>
        rw [show pySplit1 '.' v = [v] from by unfold pySplit1; rw [hsp]]
        exact ⟨false, rfl⟩
      | some pr =>
        obtain ⟨pa, pb⟩ := pr
        rw [show pySplit1 '.' v = [String.mk pa, String.mk pb] from by
          unfold pySplit1; rw [hsp]]
        have hsig : strAscii (String.mk pb) = true :=
          strAscii_mk_of_subset (splitFirstP_mem hsp).2 hv
        show ∃ b, (match pyInt (String.mk pa) with
          | none => Except.ok false
          | some ts =>
            if ts > now + 60 then Except.ok false
            else if now - ts > (SESSION_TTL_SEC : Int) then Except.ok false
            else
              match (pySplit1 '.' (signSession mac passHash ts))[1]? with
              | none => Except.error PyExc.indexError
              | some expected =>
                if strAscii (String.mk pb) && strAscii expected then
                  Except.ok (String.mk pb == expected)
                else Except.error PyExc.typeError) = Except.ok b
        cases hpi : pyInt (String.mk pa) with
        | none => exact ⟨false, rfl⟩
        | some ts =>
          show ∃ b, (if ts > now + 60 then Except.ok false
            else if now - ts > (SESSION_TTL_SEC : Int) then Except.ok false
            else
              match (pySplit1 '.' (signSession mac passHash ts))[1]? with
              | none => Except.error PyExc.indexError
              | some expected =>
                if strAscii (String.mk pb) && strAscii expected then
                  Except.ok (String.mk pb == expected)
                else Except.error PyExc.typeError) = Except.ok b
          by_cases h1 : ts > now + 60
          · rw [if_pos h1]; exact ⟨false, rfl⟩
          · rw [if_neg h1]
            by_cases h2 : now - ts > (SESSION_TTL_SEC : Int)
            · rw [if_pos h2]; exact ⟨false, rfl⟩
            · rw [if_neg h2]
              rw [pySplit1_signSession]
              refine ⟨String.mk pb == mac passHash (intToStr ts), ?_⟩
              show (if strAscii (String.mk pb) && strAscii (mac passHash (intToStr ts)) then
                  Except.ok (String.mk pb == mac passHash (intToStr ts))
                else Except.error PyExc.typeError) = _
              rw [hsig, hm]
              rfl

theorem isSessionAuthedE_error_typeError (mac : String → String → String)
    (passHash : String) (cookie : Option String) (now : Int) (e : PyExc)
    (h : isSessionAuthedE mac passHash cookie now = .error e) : e = .typeError := by
  cases cookie with
  | none => simp [isSessionAuthedE] at h
  | some v =>
    simp only [isSessionAuthedE] at h
    by_cases hve : v = ""
    · rw [if_pos hve] at h; exact Except.noConfusion h
    · rw [if_neg hve] at h
      cases hsp : splitFirstP (fun c => c == '.') v.data with
      | none =>
        rw [show pySplit1 '.' v = [v] from by unfold pySplit1; rw [hsp]] at h
        exact Except.noConfusion h
      | some pr =>
        obtain ⟨pa, pb⟩ := pr
        rw [show pySplit1 '.' v = [String.mk pa, String.mk pb] from by
          unfold pySplit1; rw [hsp]] at h
        have h2 : (match pyInt (String.mk pa) with
          | none => Except.ok false
          | some ts =>
            if ts > now + 60 then Except.ok false
            else if now - ts > (SESSION_TTL_SEC : Int) then Except.ok false
            else
              match (pySplit1 '.' (signSession mac passHash ts))[1]? with
              | none => Except.error PyExc.indexError
              | some expected =>
                if strAscii (String.mk pb) && strAscii expected then
                  Except.ok (String.mk pb == expected)
                else Except.error PyExc.typeError) = Except.error e := h
        cases hpi : pyInt (String.mk pa) with
        | none => rw [hpi] at h2; exact Except.noConfusion h2
        | some ts =>
          rw [hpi] at h2
          have h2b : (if ts > now + 60 then Except.ok false
            else if now - ts > (SESSION_TTL_SEC : Int) then Except.ok false
            else
              match (pySplit1 '.' (signSession mac passHash ts))[1]? with
              | none => Except.error PyExc.indexError
              | some expected =>
                if strAscii (String.mk pb) && strAscii expected then
                  Except.ok (String.mk pb == expected)
                else Except.error PyExc.typeError) = Except.error e := h2
          by_cases hc1 : ts > now + 60
          · rw [if_pos hc1] at h2b; exact Except.noConfusion h2b
          · rw [if_neg hc1] at h2b
            by_cases hc2 : now - ts > (SESSION_TTL_SEC : Int)
            · rw [if_pos hc2] at h2b; exact Except.noConfusion h2b
            · rw [if_neg hc2] at h2b
              rw [pySplit1_signSession] at h2b
              have h3 : (if strAscii (String.mk pb)
                    && strAscii (mac passHash (intToStr ts)) then
                  Except.ok (String.mk pb == mac passHash (intToStr ts))
                else Except.error PyExc.typeError) = Except.error e := h2b
              by_cases hc3 : (strAscii (String.mk pb)
                  && strAscii (mac passHash (intToStr ts))) = true
              · rw [if_pos hc3] at h3; exact Except.noConfusion h3
              · rw [if_neg hc3] at h3
                injection h3 with h4
                exact h4.symm

/-! ## Claim theorems -/

/-- Claim C3 (corrected, counterexample): a cookie whose timestamp part
parses and is inside the freshness window but whose signature part is
non-ASCII reaches the `hmac.compare_digest` call outside the
`try/except`, which raises `TypeError`: on that input verification
evaluates to an exception, not a boolean, refuting totality for one of
the very input classes the claim names. -/
theorem session_total_counterexample :
    isSessionAuthedE (fun k m => k ++ m) "k" (some "0.é") 0 = .error .typeError
    ∧ ∀ b : Bool, isSessionAuthedE (fun k m => k ++ m) "k" (some "0.é") 0 ≠ .ok b := by
  have h : isSessionAuthedE (fun k m => k ++ m) "k" (some "0.é") 0 = .error .typeError := rfl
  exact ⟨h, fun b hb => by rw [h] at hb; exact Except.noConfusion hb⟩

/-- Claim C3 (amended): provided the MAC returns ASCII text (the real
HMAC-SHA256 hexdigest always does), session verification is total on
every cookie whose text is ASCII — it returns the boolean the
middleware observes, any parse failure having been mapped to `false`
by the `try/except` — and the only exception it can ever raise, on any
cookie at all, is the `TypeError` of the constant-time compare on a
non-ASCII signature part; in particular the `[1]` index never
raises. -/
theorem session_verify_total (mac : String → String → String) (passHash : String)
    (cookie : Option String) (now : Int)
    (hm : ∀ k m, strAscii (mac k m) = true) :
    (strAscii (cookie.getD "") = true →
      isSessionAuthedE mac passHash cookie now
        = .ok (isSessionAuthed mac passHash cookie now))
    ∧ ∀ e, isSessionAuthedE mac passHash cookie now = .error e → e = .typeError := by
  constructor
  · intro hca
    obtain ⟨b, hb⟩ := isSessionAuthedE_ok mac passHash cookie now hm hca
    rw [hb]
    unfold isSessionAuthed
    rw [hb]
  · exact fun e he => isSessionAuthedE_error_typeError mac passHash cookie now e he

/-- Witness for the amended C3: an ASCII garbage cookie verifies to a
boolean with no exception. -/
theorem session_verify_total_witness :
    isSessionAuthedE (fun _ _ => "aa") "p" (some "not.a.cookie") 3
      = .ok (isSessionAuthed (fun _ _ => "aa") "p" (some "not.a.cookie") 3) :=
  (session_verify_total (fun _ _ => "aa") "p" (some "not.a.cookie") 3
    (fun _ _ => rfl)).1 (by decide)

/-- Claim C2: for every integer timestamp and configured secret, with
the MAC returning ASCII text (as the real hexdigest does), the token
issued by `_sign_session(ts)` verifies true at any `now` with
`0 ≤ now - ts ≤ SESSION_TTL_SEC` and `ts ≤ now + 60` (in particular at
`now = ts`), and verifies false at any `now2` with
`now2 - ts > SESSION_TTL_SEC`. -/
theorem session_issue_verify (mac : String → String → String) (passHash : String) (ts : Int)
    (hm : ∀ k m, strAscii (mac k m) = true) :
    (∀ now : Int, 0 ≤ now - ts → now - ts ≤ (SESSION_TTL_SEC : Int) → ts ≤ now + 60 →
      isSessionAuthedE mac passHash (some (signSession mac passHash ts)) now = .ok true)
    ∧ (∀ now2 : Int, now2 - ts > (SESSION_TTL_SEC : Int) →
      isSessionAuthedE mac passHash (some (signSession mac passHash ts)) now2 = .ok false) := by
  have hne := signSession_ne_empty mac passHash ts
  constructor
  · intro now h0 h1 h2
    simp only [isSessionAuthedE]
    rw [if_neg hne]
    rw [pySplit1_signSession]
    show (match pyInt (intToStr ts) with
      | none => Except.ok false
      | some ts' =>
        if ts' > now + 60 then Except.ok false
        else if now - ts' > (SESSION_TTL_SEC : Int) then Except.ok false
        else
          match (pySplit1 '.' (signSession mac passHash ts'))[1]? with
          | none => Except.error PyExc.indexError
          | some expected =>
            if strAscii (mac passHash (intToStr ts)) && strAscii expected then
              Except.ok (mac passHash (intToStr ts) == expected)
            else Except.error PyExc.typeError) = Except.ok true
    rw [pyInt_intToStr]
    show (if ts > now + 60 then Except.ok false
        else if now - ts > (SESSION_TTL_SEC : Int) then Except.ok false
        else
          match (pySplit1 '.' (signSession mac passHash ts))[1]? with
          | none => Except.error PyExc.indexError
          | some expected =>
            if strAscii (mac passHash (intToStr ts)) && strAscii expected then
              Except.ok (mac passHash (intToStr ts) == expected)
            else Except.error PyExc.typeError) = Except.ok true
    have httl : ((SESSION_TTL_SEC : Nat) : Int) = 86400 := by norm_num [SESSION_TTL_SEC]
    rw [if_neg (by omega), if_neg (by omega)]
    rw [pySplit1_signSession]
    simp [hm]
  · intro now2 hexp
    simp only [isSessionAuthedE]
    rw [if_neg hne]
    rw [pySplit1_signSession]
    show (match pyInt (intToStr ts) with
      | none => Except.ok false
      | some ts' =>
        if ts' > now2 + 60 then Except.ok false
        else if now2 - ts' > (SESSION_TTL_SEC : Int) then Except.ok false
        else
          match (pySplit1 '.' (signSession mac passHash ts'))[1]? with
          | none => Except.error PyExc.indexError
          | some expected =>
            if strAscii (mac passHash (intToStr ts)) && strAscii expected then
              Except.ok (mac passHash (intToStr ts) == expected)
            else Except.error PyExc.typeError) = Except.ok false
    rw [pyInt_intToStr]
    show (if ts > now2 + 60 then Except.ok false
        else if now2 - ts > (SESSION_TTL_SEC : Int) then Except.ok false
        else
          match (pySplit1 '.' (signSession mac passHash ts))[1]? with
          | none => Except.error PyExc.indexError
          | some expected =>
            if strAscii (mac passHash (intToStr ts)) && strAscii expected then
              Except.ok (mac passHash (intToStr ts) == expected)
            else Except.error PyExc.typeError) = Except.ok false
    have httl : ((SESSION_TTL_SEC : Nat) : Int) = 86400 := by norm_num [SESSION_TTL_SEC]
    rw [if_neg (by omega), if_pos (by omega)]

/-- Witness for C2 at a concrete secret, MAC, timestamp and clock. -/
theorem session_issue_verify_witness :
    isSessionAuthedE (fun _ _ => "aa") "k" (some (signSession (fun _ _ => "aa") "k" 5)) 5
        = .ok true
    ∧ isSessionAuthedE (fun _ _ => "aa") "k" (some (signSession (fun _ _ => "aa") "k" 5))
        (5 + 86401) = .ok false := by
  constructor
  · exact (session_issue_verify (fun _ _ => "aa") "k" 5 (fun _ _ => rfl)).1 5
      (by norm_num) (by norm_num [SESSION_TTL_SEC]) (by norm_num)
  · exact (session_issue_verify (fun _ _ => "aa") "k" 5 (fun _ _ => rfl)).2 (5 + 86401)
      (by norm_num [SESSION_TTL_SEC])

/-- Claim C4: when `CHARGEN_TOKEN` is unset (or empty), every request
whose path is not on the allow-list (`/ping`, `/robots.txt`, `/login`,
`/logout`) is rejected by the middleware with the 503
service-unavailable response, whatever Authorization header, `t` query
parameter, session cookie or Accept header it carries — in particular
the result is not `.next`, so the route handler never runs. -/
theorem gate_fail_closed (mac : String → String → String) (cfgToken : Option String)
    (passHash : String) (req : GateReq) (now : Int)
    (hp1 : req.path ≠ "/ping") (hp2 : req.path ≠ "/robots.txt")
    (hp3 : req.path ≠ "/login") (hp4 : req.path ≠ "/logout")
    (htok : cfgToken.getD "" = "") :
    tokenGate mac cfgToken passHash req now = .json 503 "CHARGEN_TOKEN not configured" := by
  simp only [tokenGate]
  rw [if_neg (not_or.mpr ⟨hp1, hp2⟩), if_neg (not_or.mpr ⟨hp3, hp4⟩), if_pos htok]

/-- Witness for C4: a request to `/characters` carrying every kind of
credential is still rejected 503 when the token is unset. -/
theorem gate_fail_closed_witness :
    tokenGate (fun _ m => m) none "0123456789abcdef0123456789abcdef0123456789abcdef0123456789abcdef"
      { path := "/characters", authorization := some "Bearer tok", tParam := some "tok",
        cookie := some "12.sig", accept := some "text/html" } 7
      = .json 503 "CHARGEN_TOKEN not configured" := by
  exact gate_fail_closed (fun _ m => m) none _ _ 7
    (by decide) (by decide) (by decide) (by decide) rfl

theorem str_ne_empty_of_data {s : String} (h : s.data ≠ []) : s ≠ "" := by
  intro he
  apply h
  rw [he]

theorem append_ne_empty_right (a : String) {b : String} (hb : b ≠ "") : a ++ b ≠ "" := by
  apply str_ne_empty_of_data
  rw [data_append]
  intro h
  rcases List.append_eq_nil.mp h with ⟨_, hb2⟩
  exact hb (by cases b with | mk l => cases hb2; rfl)

theorem append_ne_empty_left {a : String} (ha : a ≠ "") (b : String) : a ++ b ≠ "" := by
  apply str_ne_empty_of_data
  rw [data_append]
  intro h
  rcases List.append_eq_nil.mp h with ⟨ha2, _⟩
  exact ha (by cases a with | mk l => cases ha2; rfl)

theorem toList_present (o : Option String) :
    (present o).toList = if truthy o = true then [o.getD ""] else [] := by
  cases o with
  | none => simp [present, truthy]
  | some s => by_cases hs : s = "" <;> simp [present, truthy, hs]

theorem toList_map_present (o : Option String) (f : String → String) :
    ((present o).map f).toList = if truthy o = true then [f (o.getD "")] else [] := by
  cases o with
  | none => simp [present, truthy]
  | some s => by_cases hs : s = "" <;> simp [present, truthy, hs]

theorem filterMap_id_cons {α : Type} (x : Option α) (l : List (Option α)) :
    List.filterMap id (x :: l) = x.toList ++ List.filterMap id l := by
  cases x <;> simp

theorem composeParts_mem_ne {race clazz mood bg gender style extra : Option String}
    {p : String} (hp : p ∈ composeParts race clazz mood bg gender style extra) :
    (p != "") = true := by
  have hne : p ≠ "" := by
    unfold composeParts at hp
    simp only [List.mem_append] at hp
    rcases hp with ((((((h | h) | h) | h) | h) | h) | h) <;>
      [skip; skip; skip; skip; skip; skip; skip] <;>
    · split at h
      next ht =>
        rcases List.mem_singleton.mp h with rfl
        first
          | exact fun he => (by simpa [truthy, he] using ht : False)
          | exact append_ne_empty_right _ (by decide)
          | exact append_ne_empty_left (by decide) _
      next => simp at h
  simpa using hne

theorem composeTraits_eq_parts (race clazz mood bg gender style extra : Option String) :
    composeTraits race clazz mood bg gender style extra
      = String.intercalate ", " (composeParts race clazz mood bg gender style extra) := by
  unfold composeTraits
  rw [List.filter_eq_self.mpr (fun p hp => composeParts_mem_ne hp)]

theorem listHas_append_right (n : List Char) {ys : List Char} (h : listHas n ys = true)
    (xs : List Char) : listHas n (xs ++ ys) = true := by
  induction xs with
  | nil => simpa using h
  | cons c cs ih => simp [listHas, ih]

/-- Claim C7: `_compose_traits` returns exactly the non-empty fields,
rendered with their suffixes, joined with `", "` in the fixed order
race, class, mood expression, background background, gender,
Style: style, extra — and the all-empty call returns `""`. -/
theorem compose_traits_spec :
    (∀ race clazz mood bg gender style extra : Option String,
      composeTraits race clazz mood bg gender style extra
        = composeSpec race clazz mood bg gender style extra)
    ∧ composeTraits none none none none none none none = "" := by
  constructor
  · intro race clazz mood bg gender style extra
    rw [composeTraits_eq_parts]
    unfold composeSpec
    rw [filterMap_id_cons, filterMap_id_cons, filterMap_id_cons, filterMap_id_cons,
        filterMap_id_cons, filterMap_id_cons, filterMap_id_cons]
    simp only [List.filterMap_nil, List.append_nil]
    rw [toList_present, toList_present, toList_map_present, toList_map_present,
        toList_present, toList_map_present, toList_present]
    unfold composeParts
    simp [List.append_assoc]
  · decide

/-- Claim C8 (theorem): the "ensure style tag present" step of the
regenerate handler is idempotent — for every traits string and every
non-empty style value, applying the step twice equals applying it once,
because the appended `"Style: <style>"` token makes the case-insensitive
`style:` containment check true on the second pass. -/
theorem style_tag_idempotent (style : String) (hs : style ≠ "") (traits : String) :
    ensureStyleTag (some style) (ensureStyleTag (some style) traits)
      = ensureStyleTag (some style) traits := by
  by_cases hc : truthy (some style) = true
      ∧ listHas "style:".data (lowerStr traits).data = false
  · have h1 : ensureStyleTag (some style) traits
        = pyStrip traits ++ (if pyStrip traits ≠ "" then ", " else "") ++ "Style: " ++ style := by
      unfold ensureStyleTag
      rw [if_pos hc]
      rfl
    have hcontains : listHas "style:".data
        (lowerStr (ensureStyleTag (some style) traits)).data = true := by
      rw [h1]
      show listHas "style:".data
        ((pyStrip traits ++ (if pyStrip traits ≠ "" then ", " else "")
          ++ "Style: " ++ style).data.map Char.toLower) = true
      rw [data_append, data_append, data_append]
      simp only [List.map_append, List.append_assoc]
      apply listHas_append_right
      apply listHas_append_right
      rfl
    conv_lhs => rw [ensureStyleTag]
    rw [if_neg (fun hcc => by rw [hcontains] at hcc; exact absurd hcc.2 (by decide))]
  · have h0 : ensureStyleTag (some style) traits = traits := by
      unfold ensureStyleTag
      rw [if_neg hc]
    rw [h0, h0]

/-- Witness for C8 at a concrete traits string and style. -/
theorem style_tag_idempotent_witness :
    ensureStyleTag (some "Anime") (ensureStyleTag (some "Anime") "Elf, Wizard")
      = ensureStyleTag (some "Anime") "Elf, Wizard" :=
  style_tag_idempotent "Anime" (by decide) "Elf, Wizard"

/-- Claim C5: in every regenerate, the best-effort delete of the old
image object is issued exactly once, strictly after the row update
committed with exactly one affected row (the success trace is literally
generate, upload, update, commit, then one delete of the previous
`image_url`); and on any failure of generation, the required upload, or
the row update (including an affected-row count other than one) the
operation aborts with no committed row values, no commit event and no
delete event. -/
theorem regenerate_cleanup_order (row : CharRow) (row? : Option CharRow) (b : RegenBody)
    (genRes : Except Nat Unit) (uploadRes : Except Nat (String × Option String))
    (updRes : Except Nat Nat) :
    (∀ v, (characterRegenerate (some row) b genRes uploadRes updRes).1 = .ok v →
      (characterRegenerate (some row) b genRes uploadRes updRes).2.1
        = [.genImage, .upload, .updateRow, .commitRow, .deleteOld row.image_url])
    ∧ ((characterRegenerate row? b genRes uploadRes updRes).1.isOk = false →
      (∀ u, REv.deleteOld u ∉ (characterRegenerate row? b genRes uploadRes updRes).2.1)
      ∧ REv.commitRow ∉ (characterRegenerate row? b genRes uploadRes updRes).2.1
      ∧ (characterRegenerate row? b genRes uploadRes updRes).2.2 = none) := by
  constructor
  · intro v hv
    rcases genRes with e | u
    · simp [characterRegenerate] at hv
    · rcases uploadRes with e | ⟨iu, tu⟩
      · simp [characterRegenerate] at hv
      · rcases updRes with e | n
        · simp [characterRegenerate] at hv
        · by_cases hn : n = 1
          · simp [characterRegenerate, hn]
          · simp [characterRegenerate, hn] at hv
  · intro hfail
    rcases row? with _ | row'
    · simp [characterRegenerate]
    · rcases genRes with e | u
      · simp [characterRegenerate]
      · rcases uploadRes with e | ⟨iu, tu⟩
        · simp [characterRegenerate]
        · rcases updRes with e | n
          · simp [characterRegenerate]
          · by_cases hn : n = 1
            · simp [characterRegenerate, hn, Except.isOk, Except.toBool] at hfail
            · simp [characterRegenerate, hn]

/-- Witness for C5: a fully successful regenerate produces exactly the
ordered trace ending in one delete of the old URL, and a failed upload
produces no commit and no delete. -/
theorem regenerate_cleanup_order_witness :
    ((characterRegenerate
        (some { race := none, clazz := none, mood := none, bg := none, gender := none,
                style := none, extra := none, traits := some "Elf", image_url := "old" })
        { extra := none, traits := none, style := none }
        (.ok ()) (.ok ("new", none)) (.ok 1)).2.1
      = [.genImage, .upload, .updateRow, .commitRow, .deleteOld "old"])
    ∧ ((∀ u, REv.deleteOld u ∉ (characterRegenerate
        (some { race := none, clazz := none, mood := none, bg := none, gender := none,
                style := none, extra := none, traits := some "Elf", image_url := "old" })
        { extra := none, traits := none, style := none }
        (.ok ()) (.error 503) (.ok 1)).2.1)
      ∧ REv.commitRow ∉ (characterRegenerate
        (some { race := none, clazz := none, mood := none, bg := none, gender := none,
                style := none, extra := none, traits := some "Elf", image_url := "old" })
        { extra := none, traits := none, style := none }
        (.ok ()) (.error 503) (.ok 1)).2.1
      ∧ (characterRegenerate
        (some { race := none, clazz := none, mood := none, bg := none, gender := none,
                style := none, extra := none, traits := some "Elf", image_url := "old" })
        { extra := none, traits := none, style := none }
        (.ok ()) (.error 503) (.ok 1)).2.2 = none) := by
  constructor
  · exact (regenerate_cleanup_order
      { race := none, clazz := none, mood := none, bg := none, gender := none,
        style := none, extra := none, traits := some "Elf", image_url := "old" }
      (some { race := none, clazz := none, mood := none, bg := none, gender := none,
              style := none, extra := none, traits := some "Elf", image_url := "old" })
      { extra := none, traits := none, style := none }
      (.ok ()) (.ok ("new", none)) (.ok 1)).1 ("new", none) rfl
  · exact (regenerate_cleanup_order
      { race := none, clazz := none, mood := none, bg := none, gender := none,
        style := none, extra := none, traits := some "Elf", image_url := "old" }
      (some { race := none, clazz := none, mood := none, bg := none, gender := none,
              style := none, extra := none, traits := some "Elf", image_url := "old" })
      { extra := none, traits := none, style := none }
      (.ok ()) (.error 503) (.ok 1)).2 rfl

/-- Claim C6: `_delete_spaces_object_if_ours` never lets an exception
reach the caller (every outcome of the attempted delete yields `.ok`),
and issues no delete call at all when the store is unconfigured, when
the URL is `None` or empty, or when the URL does not start with the
store's own public base. -/
theorem delete_if_owned_safe (cfg : Option SpacesCfg) (url : Option String)
    (delRes : Except Unit Unit) :
    (∃ evs, deleteSpacesObjectIfOurs cfg url delRes = .ok evs)
    ∧ (cfg = none → deleteSpacesObjectIfOurs cfg url delRes = .ok [])
    ∧ (url.getD "" = "" → deleteSpacesObjectIfOurs cfg url delRes = .ok [])
    ∧ (∀ c, cfg = some c →
        listStarts (spacesOwnBase c).data (url.getD "").data = false →
        deleteSpacesObjectIfOurs cfg url delRes = .ok []) := by
  refine ⟨?_, ?_, ?_, ?_⟩
  · cases cfg with
    | none => exact ⟨[], rfl⟩
    | some c =>
      simp only [deleteSpacesObjectIfOurs]
      by_cases hu : url.getD "" = ""
      · rw [if_pos hu]; exact ⟨[], rfl⟩
      · rw [if_neg hu]
        by_cases hst : listStarts (spacesOwnBase c).data (url.getD "").data = false
        · rw [if_pos hst]; exact ⟨[], rfl⟩
        · rw [if_neg hst]
          cases delRes with
          | ok u => exact ⟨_, rfl⟩
          | error e => exact ⟨_, rfl⟩
  · intro hc
    subst hc
    rfl
  · intro hu
    cases cfg with
    | none => rfl
    | some c =>
      simp only [deleteSpacesObjectIfOurs]
      rw [if_pos hu]
  · intro c hc hst
    subst hc
    simp only [deleteSpacesObjectIfOurs]
    by_cases hu : url.getD "" = ""
    · rw [if_pos hu]
    · rw [if_neg hu, if_pos hst]

/-- Witness for C6: a foreign-origin URL under a configured store is a
pure no-op, and the result is a normal return. -/
theorem delete_if_owned_safe_witness :
    deleteSpacesObjectIfOurs
      (some { accessKey := "a", secretKey := "s", bucket := "b", region := "r",
              endpoint := "sfo3.digitaloceanspaces.com" })
      (some "https://evil.example.com/chargen/x.png") (.error ()) = .ok [] := by
  exact (delete_if_owned_safe
    (some { accessKey := "a", secretKey := "s", bucket := "b", region := "r",
            endpoint := "sfo3.digitaloceanspaces.com" })
    (some "https://evil.example.com/chargen/x.png") (.error ())).2.2.2
    _ rfl (by decide)

theorem normOpt_of_strip_nil {o : Option String} (h : stripChars (o.getD "").data = []) :
    normOpt o = none := by
  unfold normOpt pyStrip
  rw [h]
  rfl

theorem normOpt_some_ne_empty {o : Option String} {t : String} (h : normOpt o = some t) :
    t ≠ "" := by
  unfold normOpt at h
  by_cases hc : pyStrip (o.getD "") = ""
  · rw [if_pos hc] at h
    exact absurd h (by simp)
  · rw [if_neg hc] at h
    rw [← Option.some_inj.mp h]
    exact hc

theorem ensureStyleTag_ne_empty (sty : Option String) {t : String} (ht : t ≠ "") :
    ensureStyleTag sty t ≠ "" := by
  unfold ensureStyleTag
  split
  · exact append_ne_empty_left
      (append_ne_empty_right _ (by decide : ("Style: " : String) ≠ "")) _
  · exact ht

theorem lowerStr_eq_empty {s : String} (h : lowerStr s = "") : s = "" := by
  have hd : s.data.map Char.toLower = [] := by
    have : (lowerStr s).data = "".data := by rw [h]
    exact this
  have : s.data = [] := List.map_eq_nil.mp hd
  cases s with
  | mk l => cases this; rfl

theorem wantsHtml_iff (accept : Option String) :
    wantsHtml accept = true ↔
      (accept = none ∨ accept = some ""
        ∨ listHas "text/html".data (lowerStr (accept.getD "")).data = true) := by
  unfold wantsHtml
  rw [Bool.or_eq_true]
  constructor
  · rintro (h | h)
    · right; right; exact h
    · have hempty : accept.getD "" = "" := lowerStr_eq_empty (eq_of_beq h)
      cases accept with
      | none => exact Or.inl rfl
      | some s =>
        right; left
        have : s = "" := by simpa using hempty
        rw [this]
  · rintro (h | h | h)
    · right; rw [h]; decide
    · right; rw [h]; decide
    · left; exact h

/-- Claim C9 (corrected, counterexample): a regenerate request with
traits = "" on a row whose stored traits is "Elf" and whose facets
compose to "Dwarf" keeps "Elf": the cleared override does not trigger
recomposition from the stored facets, contrary to the claim. -/
theorem regen_blank_traits_counterexample :
    regenTraits
        { race := some "Dwarf", clazz := none, mood := none, bg := none, gender := none,
          style := none, extra := none, traits := some "Elf", image_url := "u" }
        { extra := none, traits := some "", style := none } = "Elf"
    ∧ composeTraits (some "Dwarf") none none none none none none = "Dwarf"
    ∧ ("Elf" : String) ≠ "Dwarf" := by
  refine ⟨by decide, by decide, by decide⟩

/-- Claim C9 (amended): at the regenerate endpoint an override supplied
as an empty or whitespace-only string is indistinguishable from an
absent field — `extra` and `style` fall back to the stored values (so
regenerate can never clear them to empty), and `traits` given as ""
falls back to the stored traits, with recomposition from the stored
facets only in case the stored traits is itself empty or null. -/
theorem regen_blank_overrides (row : CharRow) (b : RegenBody) :
    (stripChars ((b.extra).getD "").data = [] → regenMergedExtra row b = row.extra)
    ∧ (stripChars ((b.style).getD "").data = [] → regenMergedStyle row b = row.style)
    ∧ (stripChars ((b.traits).getD "").data = [] →
        regenTraitsBase row b =
          (if (row.traits.getD "") = "" then
            composeTraits row.race row.clazz row.mood row.bg row.gender
              (regenMergedStyle row b) (regenMergedExtra row b)
          else row.traits.getD "")) := by
  refine ⟨?_, ?_, ?_⟩
  · intro h
    unfold regenMergedExtra
    rw [normOpt_of_strip_nil h]
  · intro h
    unfold regenMergedStyle
    rw [normOpt_of_strip_nil h]
  · intro h
    have hm : regenMergedTraits row b = row.traits := by
      unfold regenMergedTraits
      rw [normOpt_of_strip_nil h]
    unfold regenTraitsBase
    rw [hm]

/-- Witness for the amended C9 at concrete blank overrides. -/
theorem regen_blank_overrides_witness :
    (regenMergedExtra
        { race := none, clazz := none, mood := none, bg := none, gender := none,
          style := some "Oil", extra := some "notes", traits := some "Elf", image_url := "u" }
        { extra := some "  ", traits := some " ", style := some "" } = some "notes")
    ∧ (regenMergedStyle
        { race := none, clazz := none, mood := none, bg := none, gender := none,
          style := some "Oil", extra := some "notes", traits := some "Elf", image_url := "u" }
        { extra := some "  ", traits := some " ", style := some "" } = some "Oil")
    ∧ (regenTraitsBase
        { race := none, clazz := none, mood := none, bg := none, gender := none,
          style := some "Oil", extra := some "notes", traits := some "Elf", image_url := "u" }
        { extra := some "  ", traits := some " ", style := some "" } = "Elf") := by
  have h := regen_blank_overrides
    { race := none, clazz := none, mood := none, bg := none, gender := none,
      style := some "Oil", extra := some "notes", traits := some "Elf", image_url := "u" }
    { extra := some "  ", traits := some " ", style := some "" }
  exact ⟨h.1 (by decide), h.2.1 (by decide), by rw [h.2.2 (by decide)]; decide⟩

/-- Claim C1 (corrected, counterexample): the metadata-update handler
with a cleared traits field writes traits = None verbatim — no
reconstitution from the facets happens, and the written null traits
violates the schema's own `traits text not null` — refuting the claim
that every persisting operation reconstitutes cleared traits before
writing. -/
theorem traits_nonempty_counterexample :
    characterUpdate { name := some "Bob", extra := some "", traits := some "" }
        = .ok { name := "Bob", extra := none, traits := none }
    ∧ schemaTraitsOk none = false := by
  refine ⟨rfl, by decide⟩

/-- Claim C1 (amended): create rejects blank traits with a 400 before
any effect and never inserts an empty traits; the metadata update does
not reconstitute — it writes the normalized client traits verbatim,
null when cleared (a value the schema's NOT NULL constraint rejects);
regenerate is the one path that reconstitutes: with a cleared override
and an empty stored traits it composes the stored facets plus extra,
and whenever the stored traits is non-empty it writes a non-empty
traits. -/
theorem traits_reconstitution (gb : GenBody) (genRes : Except Nat Unit)
    (uploadRes : Except Nat (String × Option String)) (ub : UpdBody)
    (row : CharRow) (b : RegenBody) :
    (pyStrip (gb.traits.getD "") = "" →
      generateCreate gb genRes uploadRes = (.error 400, none))
    ∧ (∀ r, (generateCreate gb genRes uploadRes).2 = some r → r.traits ≠ "")
    ∧ (∀ w, characterUpdate ub = .ok w → w.traits = normOpt ub.traits)
    ∧ (stripChars (b.traits.getD "").data = [] → row.traits.getD "" = "" →
        regenTraitsBase row b =
          composeTraits row.race row.clazz row.mood row.bg row.gender
            (regenMergedStyle row b) (regenMergedExtra row b))
    ∧ (row.traits.getD "" ≠ "" → regenTraits row b ≠ "") := by
  refine ⟨?_, ?_, ?_, ?_, ?_⟩
  · intro h
    unfold generateCreate
    rw [if_pos h]
  · intro r hr
    unfold generateCreate at hr
    by_cases h : pyStrip (gb.traits.getD "") = ""
    · rw [if_pos h] at hr
      exact absurd hr (by simp)
    · rw [if_neg h] at hr
      rcases genRes with e | u
      · exact absurd hr (by simp)
      · rcases uploadRes with e | ⟨iu, tu⟩
        · exact absurd hr (by simp)
        · simp only [Option.some_inj] at hr
          rw [← hr]
          exact h
  · intro w hw
    unfold characterUpdate at hw
    cases hn : normOpt ub.name with
    | none => rw [hn] at hw; exact absurd hw (by simp)
    | some nm =>
      rw [hn] at hw
      simp only [Except.ok.injEq] at hw
      rw [← hw]
  · intro h hrow
    have hm : regenMergedTraits row b = row.traits := by
      unfold regenMergedTraits
      rw [normOpt_of_strip_nil h]
    unfold regenTraitsBase
    rw [hm, if_pos hrow]
  · intro hrow
    unfold regenTraits
    apply ensureStyleTag_ne_empty
    unfold regenTraitsBase
    cases hb : normOpt b.traits with
    | none =>
      have hm : regenMergedTraits row b = row.traits := by
        unfold regenMergedTraits
        rw [hb]
      rw [hm, if_neg hrow]
      exact fun he => hrow (by simpa using he)
    | some t =>
      have hm : regenMergedTraits row b = some t := by
        unfold regenMergedTraits
        rw [hb]
      rw [hm]
      have ht : t ≠ "" := normOpt_some_ne_empty hb
      rw [if_neg (by simpa using ht)]
      simpa using ht

/-- Witness for the amended C1: blank-traits create 400s, regenerate on
a row with empty stored traits and a cleared override recomposes from
the facets, and regenerate on a row with non-empty stored traits writes
a non-empty traits. -/
theorem traits_reconstitution_witness :
    (generateCreate
        { name := none, race := none, clazz := none, mood := none, bg := none,
          gender := none, style := none, extra := none, traits := some "  " }
        (.ok ()) (.ok ("u", none)) = (.error 400, none))
    ∧ (regenTraitsBase
        { race := some "Dwarf", clazz := some "Cleric", mood := none, bg := none,
          gender := none, style := none, extra := none, traits := some "",
          image_url := "u" }
        { extra := none, traits := some "", style := none } = "Dwarf, Cleric")
    ∧ (regenTraits
        { race := none, clazz := none, mood := none, bg := none, gender := none,
          style := none, extra := none, traits := some "Elf", image_url := "u" }
        { extra := none, traits := none, style := none } ≠ "") := by
  have h1 := (traits_reconstitution
    { name := none, race := none, clazz := none, mood := none, bg := none,
      gender := none, style := none, extra := none, traits := some "  " }
    (.ok ()) (.ok ("u", none))
    { name := none, extra := none, traits := none }
    { race := some "Dwarf", clazz := some "Cleric", mood := none, bg := none,
      gender := none, style := none, extra := none, traits := some "",
      image_url := "u" }
    { extra := none, traits := some "", style := none }).1 (by decide)
  have h4 := (traits_reconstitution
    { name := none, race := none, clazz := none, mood := none, bg := none,
      gender := none, style := none, extra := none, traits := some "  " }
    (.ok ()) (.ok ("u", none))
    { name := none, extra := none, traits := none }
    { race := some "Dwarf", clazz := some "Cleric", mood := none, bg := none,
      gender := none, style := none, extra := none, traits := some "",
      image_url := "u" }
    { extra := none, traits := some "", style := none }).2.2.2.1 (by decide) (by decide)
  have h5 := (traits_reconstitution
    { name := none, race := none, clazz := none, mood := none, bg := none,
      gender := none, style := none, extra := none, traits := some "  " }
    (.ok ()) (.ok ("u", none))
    { name := none, extra := none, traits := none }
    { race := none, clazz := none, mood := none, bg := none, gender := none,
      style := none, extra := none, traits := some "Elf", image_url := "u" }
    { extra := none, traits := none, style := none }).2.2.2.2 (by decide)
  refine ⟨h1, ?_, h5⟩
  rw [h4]
  decide

/-- Claim C10 (corrected, counterexample): with `PASSPHRASE_SHA256` set
to sixty-four 'g' characters — a configured value of length 64 that is
not a hex digest — an HTML-accepting rejected request receives the 302
redirect to `/login`, not the 401 HTML page the claim prescribes when
no 64-hex digest is configured. -/
theorem gate_html_reject_counterexample :
    tokenGate (fun _ m => m) (some "tok") (String.mk (List.replicate 64 'g'))
        { path := "/x", authorization := none, tParam := none, cookie := none,
          accept := none } 0
      = .redirect 302 "/login"
    ∧ isHex64 (String.mk (List.replicate 64 'g')) = false := by
  refine ⟨by decide, by decide⟩

/-- Claim C10 (amended): for every request rejected by the gate — the
session-cookie step having evaluated to false without raising (a
cookie with a parseable fresh timestamp and a non-ASCII signature
instead makes the middleware raise, so the request gets a 500 and
reaches no rejection branch) — an absent, empty, or
`text/html`-containing Accept header yields the browser response: the
302 redirect to `/login` exactly when a non-empty 64-character
`PASSPHRASE_SHA256` is configured (the length, not hexness, is what
the code checks), otherwise the 401 HTML page; and a non-empty Accept
header without `text/html` yields the structured JSON 401. -/
theorem gate_html_reject_classification (mac : String → String → String)
    (cfgToken : Option String) (passHash : String) (req : GateReq) (now : Int)
    (hp1 : req.path ≠ "/ping") (hp2 : req.path ≠ "/robots.txt")
    (hp3 : req.path ≠ "/login") (hp4 : req.path ≠ "/logout")
    (htok : cfgToken.getD "" ≠ "")
    (hbear : extractToken req.authorization req.tParam ≠ some (cfgToken.getD ""))
    (hsess : (if passHash = "" then (Except.ok false : Except PyExc Bool)
              else isSessionAuthedE mac passHash req.cookie now) = .ok false) :
    ((req.accept = none ∨ req.accept = some ""
        ∨ listHas "text/html".data (lowerStr (req.accept.getD "")).data = true) →
      tokenGateE mac cfgToken passHash req now
        = .ok (if passHash ≠ "" ∧ passHash.length = 64 then .redirect 302 "/login"
               else .html 401))
    ∧ ((req.accept ≠ none ∧ req.accept ≠ some ""
        ∧ listHas "text/html".data (lowerStr (req.accept.getD "")).data = false) →
      tokenGateE mac cfgToken passHash req now = .ok (.json 401 "unauthorized")) := by
  have hreject : tokenGateE mac cfgToken passHash req now
      = (if wantsHtml req.accept then
          (if passHash ≠ "" ∧ passHash.length = 64 then
            Except.ok (GateResp.redirect 302 "/login")
           else Except.ok (GateResp.html 401))
         else Except.ok (GateResp.json 401 "unauthorized")) := by
    simp only [tokenGateE]
    rw [if_neg (not_or.mpr ⟨hp1, hp2⟩), if_neg (not_or.mpr ⟨hp3, hp4⟩),
      if_neg htok, if_neg hbear, hsess]
  constructor
  · intro h
    rw [hreject, if_pos ((wantsHtml_iff req.accept).mpr h)]
    split <;> rfl
  · intro h
    rw [hreject, if_neg ?_]
    intro hw
    rcases (wantsHtml_iff req.accept).mp hw with hh | hh | hh
    · exact h.1 hh
    · exact h.2.1 hh
    · rw [h.2.2] at hh
      exact absurd hh (by decide)

/-- Witness for the amended C10: with no passphrase configured, an
absent Accept header gets the 401 HTML page and a JSON-only Accept
header gets the JSON 401, with no exception raised. -/
theorem gate_html_reject_classification_witness :
    tokenGateE (fun _ m => m) (some "tok") ""
        { path := "/x", authorization := none, tParam := none, cookie := none,
          accept := none } 0 = .ok (.html 401)
    ∧ tokenGateE (fun _ m => m) (some "tok") ""
        { path := "/x", authorization := none, tParam := none, cookie := none,
          accept := some "application/json" } 0 = .ok (.json 401 "unauthorized") := by
  constructor
  · have h := (gate_html_reject_classification (fun _ m => m) (some "tok") ""
      { path := "/x", authorization := none, tParam := none, cookie := none,
        accept := none } 0
      (by decide) (by decide) (by decide) (by decide) (by decide) (by decide)
      rfl).1 (Or.inl rfl)
    simpa using h
  · exact (gate_html_reject_classification (fun _ m => m) (some "tok") ""
      { path := "/x", authorization := none, tParam := none, cookie := none,
        accept := some "application/json" } 0
      (by decide) (by decide) (by decide) (by decide) (by decide) (by decide)
      rfl).2 ⟨by decide, by decide, by decide⟩

end CharGen

